import Mathlib

/-!
# Verification of the econ2219-plots data pipeline

Shallow embedding of the data loading / cleaning / aggregation code of
src/matplot.py (class CountryData).  Modelling conventions:

* A CSV cell that goes through pd.to_numeric(errors="coerce") is an
  Option ℚ, with none standing for NaN.
* Float arithmetic whose result can be NaN or infinite (the per-row
  GDP/Population division, the unemployment-rate formula, column means)
  is carried out in the extended-value type EV.
* A calendar date is the month count y * 12 + (m - 1) of its year and
  month; the datetime64 year bounds (1677..2262) are not modelled.
* A TIME_PERIOD string is abstracted to its shape (year, valid
  year-month, or anything else); strings of an invalid shape fail every
  parse, as they do under pandas errors="coerce".
* pandas sort_values is modelled as a stable sort (insertionSort).
-/

/-- Extended float value: NaN, plus or minus infinity, or a finite number. -/
inductive EV where
  | nan
  | pinf
  | ninf
  | fin (q : ℚ)
  deriving DecidableEq

/-- Float addition on extended values: NaN absorbs, inf + -inf = NaN. -/
def EV.add : EV → EV → EV
  | .nan, _ => .nan
  | _, .nan => .nan
  | .pinf, .ninf => .nan
  | .ninf, .pinf => .nan
  | .pinf, _ => .pinf
  | _, .pinf => .pinf
  | .ninf, _ => .ninf
  | _, .ninf => .ninf
  | .fin a, .fin b => .fin (a + b)

/-- Sum of a list of extended values (float semantics, starting from 0). -/
def EV.sumL (l : List EV) : EV := l.foldl EV.add (EV.fin 0)

/-- Division of an extended value by a (positive) count. -/
def EV.divNat : EV → Nat → EV
  | .nan, _ => .nan
  | .pinf, _ => .pinf
  | .ninf, _ => .ninf
  | .fin q, n => .fin (q / (n : ℚ))

/-- pandas Series.mean with skipna: NaN entries are ignored, and the mean
of no surviving values is NaN. -/
def EV.mean (l : List EV) : EV :=
  let vs := l.filter fun v => decide (v ≠ EV.nan)
  if vs.isEmpty then EV.nan else EV.divNat (EV.sumL vs) vs.length

/-- Per-row float division g / p as pandas performs it: NaN if either side
is NaN, and x / 0 is +inf, -inf or NaN depending on the sign of x. -/
def EV.divOpt : Option ℚ → Option ℚ → EV
  | some g, some p =>
      if p = 0 then (if g = 0 then .nan else if 0 < g then .pinf else .ninf)
      else .fin (g / p)
  | _, _ => .nan

/-- Unemployment rate (lf - emp) / lf * 100 with float semantics. -/
def rateEV (lf emp : Option ℚ) : EV :=
  match lf, emp with
  | some l, some e =>
      if l = 0 then (if e = 0 then .nan else if 0 < e then .ninf else .pinf)
      else .fin ((l - e) / l * 100)
  | _, _ => .nan

/-- Python exceptions raised by the loaders: ValueError (with its message)
and KeyError (with the missing column). -/
inductive Err where
  | valueErr (msg : String)
  | keyErr (col : String)
  deriving DecidableEq

/-- Shape of a TIME_PERIOD string: a plain year ("2019"), a year-month
with a valid month ("2019-07"), or anything else (bad).  Strings of shape
year-month with an out-of-range month are modelled as bad, since every
strptime of them fails exactly as for arbitrary junk. -/
inductive TimeStr where
  | yr (y : Nat)
  | ym (y : Nat) (m : Nat)
  | bad (s : String)
  deriving DecidableEq

/-- Sort key modelling the lexicographic order of TIME_PERIOD strings on
their canonical forms: "2019" < "2019-01" < ... < "2019-12" < "2020".
Bad strings sort at 0; their position never matters, because rows whose
date fails to parse are always dropped before the result is stored. -/
def TimeStr.key : TimeStr → Nat
  | .yr y => y * 13
  | .ym y m => y * 13 + m
  | .bad _ => 0

/-- pd.to_datetime(format="%Y-%m", errors="coerce"), as a month count. -/
def tryYM : TimeStr → Option Nat
  | .ym y m => if 1 ≤ m ∧ m ≤ 12 then some (y * 12 + (m - 1)) else none
  | _ => none

/-- pd.to_datetime(format="%Y", errors="coerce"): January 1 of the year. -/
def tryY : TimeStr → Option Nat
  | .yr y => some (y * 12)
  | _ => none

/-- pd.to_datetime with no format (the generic parser): accepts both the
"YYYY" and the "YYYY-MM" shape. -/
def tryAny : TimeStr → Option Nat
  | .yr y => some (y * 12)
  | .ym y m => if 1 ≤ m ∧ m ≤ 12 then some (y * 12 + (m - 1)) else none
  | .bad _ => none

/-- Date of January 1 of a year, as a month count. -/
def yearDate (y : Nat) : Nat := y * 12

/-- pandas drop_duplicates(keep="first") on a key column: keep, for each
key value, the first row bearing it, in order of first appearance. -/
def dedupKey [DecidableEq β] (f : α → β) : List α → List α
  | [] => []
  | a :: l => a :: dedupKey f (l.filter fun b => decide (f b ≠ f a))
  termination_by l => l.length
  decreasing_by
    simp only [List.length_cons, Nat.lt_succ_iff]
    exact List.length_filter_le _ _

/-- Comparison of rows by a natural-number sort key. -/
def keyLe (f : α → Nat) (a b : α) : Prop := f a ≤ f b

instance (f : α → Nat) : DecidableRel (keyLe f) :=
  fun a b => inferInstanceAs (Decidable (f a ≤ f b))

instance (f : α → Nat) : IsTotal α (keyLe f) := ⟨fun a b => Nat.le_total (f a) (f b)⟩

instance (f : α → Nat) : IsTrans α (keyLe f) := ⟨fun _ _ _ => Nat.le_trans⟩

/-- pandas groupby keys: the distinct key values, sorted ascending. -/
def sortedKeys (ks : List Nat) : List Nat := (dedupKey id ks).insertionSort (keyLe id)

/-- groupby(key).sum() over (key, value) pairs. -/
def groupSum (l : List (Nat × ℚ)) : List (Nat × ℚ) :=
  (sortedKeys (l.map Prod.fst)).map fun d =>
    (d, ((l.filter fun p => p.1 == d).map Prod.snd).sum)

/-- Arithmetic mean of a list of rationals. -/
def qMean (l : List ℚ) : ℚ := l.sum / (l.length : ℚ)

/-- groupby(key).mean() over (key, rational value) pairs. -/
def groupMeanQ (l : List (Nat × ℚ)) : List (Nat × ℚ) :=
  (sortedKeys (l.map Prod.fst)).map fun d =>
    (d, qMean ((l.filter fun p => p.1 == d).map Prod.snd))

/-- groupby(key).mean() over (key, extended value) pairs. -/
def groupMeanEV (l : List (Nat × EV)) : List (Nat × EV) :=
  (sortedKeys (l.map Prod.fst)).map fun d =>
    (d, EV.mean ((l.filter fun p => p.1 == d).map Prod.snd))

/-- A row of the Penn World Table CSV as the loaders see it: the Country
and Variable code columns, plus the numeric year columns (cell y is the
value under year column y, after pd.to_numeric coercion; none = NaN). -/
structure PWRow where
  country : String
  varCode : String
  cell : Nat → Option ℚ

/-- The Penn World Table CSV: its digit-named (year) columns in column
order, and its rows. -/
structure PWTable where
  yearCols : List Nat
  rows : List PWRow

/-- A row of a single-country GDP frame: columns Country, Date, GDP. -/
structure GRow where
  country : String
  date : Nat
  gdp : ℚ
  deriving DecidableEq

/-- df.melt(id_vars="Country", value_vars=year_cols) over the rows with
the given country and Variable code "rgdpo": one output row per (year
column, input row), stacked column by column as pd.melt does. -/
def gdpMelt (t : PWTable) (name : String) : List (String × Nat × Option ℚ) :=
  let rows := t.rows.filter fun r => r.country == name && r.varCode == "rgdpo"
  t.yearCols.flatMap fun y => rows.map fun r => (r.country, y, r.cell y)

/-- CountryData.get_gdp, single-country branch: filter, melt, parse the
year column name as a date, coerce the value, drop rows whose GDP is NaN. -/
def gdp_single (t : PWTable) (name : String) : List GRow :=
  (gdpMelt t name).filterMap fun x => x.2.2.map fun v => ⟨x.1, yearDate x.2.1, v⟩

/-- A row of the merged GDP-per-capita frame: columns Country, Date, GDP,
Population, GDP_per_capita. -/
structure PCRow where
  country : String
  date : Nat
  gdp : Option ℚ
  pop : Option ℚ
  pc : EV
  deriving DecidableEq

/-- CountryData.get_gdp_per_capita, single-country branch, before the
dropna: melt the rgdpo and pop rows separately, inner-merge the two long
frames on (Country, Date) (pandas keeps left order, then right order
within a key), and divide GDP by Population per row. -/
def pcMerged (t : PWTable) (name : String) : List PCRow :=
  let g := t.rows.filter fun r => r.country == name && r.varCode == "rgdpo"
  let p := t.rows.filter fun r => r.country == name && r.varCode == "pop"
  let gl := t.yearCols.flatMap fun y => g.map fun r => (y, r.cell y)
  let pl := t.yearCols.flatMap fun y => p.map fun r => (y, r.cell y)
  gl.flatMap fun gv => (pl.filter fun pv => pv.1 == gv.1).map fun pv =>
    ⟨name, yearDate gv.1, gv.2, pv.2, EV.divOpt gv.2 pv.2⟩

/-- CountryData.get_gdp_per_capita, single-country branch: the merged
frame with the rows whose GDP_per_capita is NaN dropped
(dropna(subset=["GDP_per_capita"]) removes NaN only, not ±inf). -/
def pc_single (t : PWTable) (name : String) : List PCRow :=
  (pcMerged t name).filter fun r => decide (r.pc ≠ EV.nan)

/-- A row of the CPI source: Reference area, TIME_PERIOD, OBS_VALUE. -/
structure InflRow where
  refArea : String
  timeP : TimeStr
  obs : Option ℚ

/-- The CPI CSV. -/
structure InflTable where
  rows : List InflRow

/-- A row of a cleaned inflation frame: TIME_PERIOD, INFLATION_YOY_PCT. -/
structure IRow where
  date : Nat
  val : ℚ
  deriving DecidableEq

/-- CountryData.get_inflation, single-country branch: filter by Reference
area, parse TIME_PERIOD (generic to_datetime), coerce OBS_VALUE, drop the
rows where either failed, and stable-sort ascending by date. -/
def inflation_single (t : InflTable) (name : String) : List IRow :=
  ((t.rows.filter fun r => r.refArea == name).filterMap fun r =>
      match tryAny r.timeP, r.obs with
      | some d, some v => some (⟨d, v⟩ : IRow)
      | _, _ => none).insertionSort (keyLe IRow.date)

/-- A row of the unemployment source. -/
structure URow where
  struct : String
  age : String
  refArea : String
  status : String
  timeP : TimeStr
  obs : Option ℚ

/-- The unemployment CSV. -/
structure UTable where
  rows : List URow

/-- A row of a cleaned unemployment frame: Country, Date, UnemploymentRate
(the rate may be infinite; dropna removes NaN only). -/
structure UnempRow where
  country : String
  date : Nat
  rate : EV
  deriving DecidableEq

/-- One cell of pivot_table(index=TIME_PERIOD, columns=LABOUR_FORCE_STATUS,
values=OBS_VALUE, aggfunc="sum"): the sum of the non-NaN OBS_VALUEs of the
rows with that period and status, or NaN when no such row exists. -/
def pivotCell (rows : List URow) (tp : TimeStr) (st : String) : Option ℚ :=
  let obs := (rows.filter fun r => r.timeP == tp && r.status == st).map URow.obs
  if obs.isEmpty then none else some (obs.filterMap id).sum

/-- Body shared by both branches of CountryData.get_unemployment (the
European Union branch runs the identical pipeline with the fixed label
"European Union (27 countries)"): keep DATAFLOW rows, total-age rows and
the named Reference area; pivot LF and EMP into columns (a missing status
column raises KeyError, LF being looked up first); compute the rate;
parse TIME_PERIOD with format "%Y"; dropna.  The pivot sorts its index,
grouping equal TIME_PERIOD values. -/
def unemployment_single (t : UTable) (name : String) : Except Err (List UnempRow) :=
  let rows := t.rows.filter fun r =>
    r.struct == "DATAFLOW" && r.age == "_T" && r.refArea == name
  if !(rows.any fun r => r.status == "LF") then .error (Err.keyErr "LF")
  else if !(rows.any fun r => r.status == "EMP") then .error (Err.keyErr "EMP")
  else
    let keys := (dedupKey id (rows.map URow.timeP)).insertionSort (keyLe TimeStr.key)
    .ok (keys.filterMap fun tp =>
      match tryY tp, rateEV (pivotCell rows tp "LF") (pivotCell rows tp "EMP") with
      | some d, rate => if rate = EV.nan then none else some ⟨name, d, rate⟩
      | none, _ => none)

/-- A row of the long-term interest-rate source. -/
structure BondRowSrc where
  struct : String
  refArea : String
  timeP : TimeStr
  obs : Option ℚ

/-- The long-term interest-rate CSV. -/
structure BondTable where
  rows : List BondRowSrc

/-- A row of a cleaned bond-yield frame: Country, Date, BondYield. -/
structure BRow where
  country : String
  date : Nat
  yield : ℚ
  deriving DecidableEq

/-- CountryData.get_bond_yields cleaning, up to and including the range
filter: DATAFLOW rows, the named Reference area, "%Y-%m" date parse with
"%Y" fallback (fillna), numeric coercion, dropna on Date and BondYield,
keep -5 <= BondYield <= 50. -/
def bondCleanRows (t : BondTable) (name : String) : List BRow :=
  ((t.rows.filter fun r => r.struct == "DATAFLOW").filter fun r =>
      r.refArea == name).filterMap fun r =>
    match (tryYM r.timeP).orElse (fun _ => tryY r.timeP), r.obs with
    | some d, some v =>
        if -5 ≤ v ∧ v ≤ 50 then some (⟨r.refArea, d, v⟩ : BRow) else none
    | _, _ => none

/-- CountryData.get_bond_yields: after cleaning, drop_duplicates on Date
keeping the first occurrence, then sort ascending by Date. -/
def bond_single (t : BondTable) (name : String) : List BRow :=
  (dedupKey BRow.date (bondCleanRows t name)).insertionSort (keyLe BRow.date)

/-- The order of operations the spec describes for bond yields: sort
ascending by date first, then remove duplicate dates keeping the first
occurrence in the sorted order. -/
def bondDedupAfterSort (t : BondTable) (name : String) : List BRow :=
  dedupKey BRow.date ((bondCleanRows t name).insertionSort (keyLe BRow.date))

/-- The fixed MemberSet: CountryData.EU_COUNTRIES.  It does not contain
the canonical aggregate name "European Union", so the recursive
per-member load always resolves to the single-country branch. -/
def EU_COUNTRIES : List String :=
  ["Austria", "Belgium", "Bulgaria", "Croatia", "Cyprus", "Czechia",
   "Denmark", "Estonia", "Finland", "France", "Germany", "Greece",
   "Hungary", "Ireland", "Italy", "Latvia", "Lithuania", "Luxembourg",
   "Malta", "Netherlands", "Poland", "Portugal", "Romania", "Slovakia",
   "Slovenia", "Spain", "Sweden"]

/-- The member loop shared by the three aggregate branches: try each
member's load in MemberSet order; collect the successful frames, and for
each failure record a warning naming the member and the exception
(the printed "Warning: Could not load ... for {country}: {e}"). -/
def collectMembers (load : String → Except Err α) : List String → List α × List (String × Err)
  | [] => ([], [])
  | m :: ms =>
    let rest := collectMembers load ms
    match load m with
    | .ok df => (df :: rest.1, rest.2)
    | .error e => (rest.1, (m, e) :: rest.2)

/-- pd.concat of the member GDP frames followed by
groupby("Date", as_index=False)["GDP"].sum(). -/
def gdpCombine (dfs : List (List GRow)) : List (Nat × ℚ) :=
  groupSum (dfs.flatten.map fun r => (r.date, r.gdp))

/-- The European Union branch of CountryData.get_gdp, parametrised by the
per-member loader it invokes: collect member frames (failures become
warnings), raise ValueError when none loaded, otherwise sum GDP by date.
Returns the result together with the recorded warnings. -/
def gdp_aggregate_with (load : String → Except Err (List GRow)) (members : List String) :
    Except Err (List (Nat × ℚ)) × List (String × Err) :=
  let dfs := (collectMembers load members).1
  (if dfs.isEmpty then
    .error (Err.valueErr "No EU member state GDP data could be loaded.")
   else .ok (gdpCombine dfs), (collectMembers load members).2)

/-- The European Union branch of CountryData.get_gdp over a given source
table: each member load is the (total) single-country load. -/
def gdp_aggregate (t : PWTable) (members : List String) : Except Err (List (Nat × ℚ)) :=
  (gdp_aggregate_with (fun c => .ok (gdp_single t c)) members).1

/-- pd.concat of the member GDP-per-capita frames followed by
groupby("Date", as_index=False)["GDP_per_capita"].mean(). -/
def pcCombine (dfs : List (List PCRow)) : List (Nat × EV) :=
  groupMeanEV (dfs.flatten.map fun r => (r.date, r.pc))

/-- The European Union branch of CountryData.get_gdp_per_capita,
parametrised by the per-member loader. -/
def pc_aggregate_with (load : String → Except Err (List PCRow)) (members : List String) :
    Except Err (List (Nat × EV)) × List (String × Err) :=
  let dfs := (collectMembers load members).1
  (if dfs.isEmpty then
    .error (Err.valueErr "No EU member state GDP per capita data could be loaded.")
   else .ok (pcCombine dfs), (collectMembers load members).2)

/-- The European Union branch of CountryData.get_gdp_per_capita over a
given source table. -/
def pc_aggregate (t : PWTable) (members : List String) : Except Err (List (Nat × EV)) :=
  (pc_aggregate_with (fun c => .ok (pc_single t c)) members).1

/-- Combination step of the European Union branch of
CountryData.get_inflation, applied to the collected member frames (which
are already cleaned, so the re-parse of TIME_PERIOD and the re-coercion
of the values are the identity): drop observations outside [-50, 50],
keep only the dates whose observation count is at least n / 2 where n is
the MemberSet size (count >= n / 2 over the reals, i.e. 2 * count >= n),
then average by date. -/
def inflCombine (n : Nat) (dfs : List (List IRow)) : List IRow :=
  let concatF := dfs.flatten
  let inRange := concatF.filter fun r => decide (-50 ≤ r.val ∧ r.val ≤ 50)
  let kept := inRange.filter fun r =>
    n ≤ 2 * (inRange.filter fun s => s.date == r.date).length
  (groupMeanQ (kept.map fun r => (r.date, r.val))).map fun p => ⟨p.1, p.2⟩

/-- The European Union branch of CountryData.get_inflation, parametrised
by the per-member loader.  The coverage threshold counts the whole
MemberSet (len(CountryData.EU_COUNTRIES)), not just the members that
loaded. -/
def inflation_aggregate_with (load : String → Except Err (List IRow)) (members : List String) :
    Except Err (List IRow) × List (String × Err) :=
  let dfs := (collectMembers load members).1
  (if dfs.isEmpty then
    .error (Err.valueErr "No EU member state inflation data could be loaded.")
   else .ok (inflCombine members.length dfs), (collectMembers load members).2)

/-- The European Union branch of CountryData.get_inflation over a given
source table. -/
def inflation_aggregate (t : InflTable) (members : List String) : Except Err (List IRow) :=
  (inflation_aggregate_with (fun c => .ok (inflation_single t c)) members).1

/-- The CountryData object: a mutable name and one cached frame slot per
indicator (None until the corresponding get_ method stores a result).
The gdp and gdp_per_capita slots hold either a single-country frame
(Sum.inl) or an aggregate frame with different columns (Sum.inr). -/
structure Entity where
  name : String
  gdp : Option (List GRow ⊕ List (Nat × ℚ)) := none
  gdp_per_capita : Option (List PCRow ⊕ List (Nat × EV)) := none
  inflation : Option (List IRow) := none
  unemployment : Option (List UnempRow) := none
  bond_yields : Option (List BRow) := none

/-- CountryData.__init__: all frame slots start empty. -/
def Entity.mk0 (n : String) : Entity := { name := n }

/-- CountryData.get_gdp: aggregate branch when the name equals
"European Union" (afterwards the name is re-set to that label),
single-country branch otherwise. -/
def get_gdp (e : Entity) (t : PWTable) : Except Err Entity :=
  if e.name == "European Union" then
    match gdp_aggregate t EU_COUNTRIES with
    | .error err => .error err
    | .ok agg => .ok { e with gdp := some (Sum.inr agg), name := "European Union" }
  else .ok { e with gdp := some (Sum.inl (gdp_single t e.name)) }

/-- CountryData.get_gdp_per_capita. -/
def get_gdp_per_capita (e : Entity) (t : PWTable) : Except Err Entity :=
  if e.name == "European Union" then
    match pc_aggregate t EU_COUNTRIES with
    | .error err => .error err
    | .ok agg => .ok { e with gdp_per_capita := some (Sum.inr agg), name := "European Union" }
  else .ok { e with gdp_per_capita := some (Sum.inl (pc_single t e.name)) }

/-- CountryData.get_inflation. -/
def get_inflation (e : Entity) (t : InflTable) : Except Err Entity :=
  if e.name == "European Union" then
    match inflation_aggregate t EU_COUNTRIES with
    | .error err => .error err
    | .ok f => .ok { e with inflation := some f, name := "European Union" }
  else .ok { e with inflation := some (inflation_single t e.name) }

/-- CountryData.get_unemployment: the European Union branch runs the same
pipeline as the single-country branch, with the pre-aggregated source row
label "European Union (27 countries)". -/
def get_unemployment (e : Entity) (t : UTable) : Except Err Entity :=
  if e.name == "European Union" then
    match unemployment_single t "European Union (27 countries)" with
    | .error err => .error err
    | .ok f => .ok { e with unemployment := some f, name := "European Union" }
  else
    match unemployment_single t e.name with
    | .error err => .error err
    | .ok f => .ok { e with unemployment := some f }

/-- CountryData.get_bond_yields: when the name is "European Union" it is
first rewritten to the source alias "Euro area (19 countries)", and the
filter then runs on the rewritten name.  The name is never set back. -/
def get_bond_yields (e : Entity) (t : BondTable) : Entity :=
  let n := if e.name == "European Union" then "Euro area (19 countries)" else e.name
  { e with name := n, bond_yields := some (bond_single t n) }

/-! ## Generic lemmas: dedupKey, stable sort, grouping -/

theorem dedupKey_cons [DecidableEq β] (f : α → β) (a : α) (l : List α) :
    dedupKey f (a :: l) = a :: dedupKey f (l.filter fun b => decide (f b ≠ f a)) := by
  simp [dedupKey]

theorem dedupKey_subset [DecidableEq β] (f : α → β) :
    ∀ (n : Nat) (l : List α), l.length ≤ n → dedupKey f l ⊆ l
  | _, [], _ => by simp [dedupKey]
  | 0, a :: l, h => by simp at h
  | n + 1, a :: l, h => by
    rw [dedupKey_cons]
    intro x hx
    rcases List.mem_cons.mp hx with rfl | hx
    · exact List.mem_cons_self _ _
    · have hsub := dedupKey_subset f n (l.filter fun b => decide (f b ≠ f a))
        (le_trans (List.length_filter_le _ _) (Nat.le_of_succ_le_succ h))
      exact List.mem_cons_of_mem _ (List.mem_of_mem_filter (hsub hx))

theorem mem_dedupKey_self [DecidableEq β] (f : α → β) (l : List α) :
    dedupKey f l ⊆ l :=
  dedupKey_subset f l.length l le_rfl

theorem dedupKey_pairwise [DecidableEq β] (f : α → β) :
    ∀ (n : Nat) (l : List α), l.length ≤ n →
      (dedupKey f l).Pairwise fun a b => f a ≠ f b
  | _, [], _ => by simp [dedupKey]
  | 0, a :: l, h => by simp at h
  | n + 1, a :: l, h => by
    rw [dedupKey_cons]
    refine List.Pairwise.cons (fun b hb => ?_) ?_
    · have hbf := mem_dedupKey_self f _ hb
      have hne : f b ≠ f a := by simpa using List.of_mem_filter hbf
      exact fun he => hne he.symm
    · exact dedupKey_pairwise f n _
        (le_trans (List.length_filter_le _ _) (Nat.le_of_succ_le_succ h))

theorem pairwise_dedupKey [DecidableEq β] (f : α → β) (l : List α) :
    (dedupKey f l).Pairwise fun a b => f a ≠ f b :=
  dedupKey_pairwise f l.length l le_rfl

theorem mem_dedupKey_of_mem [DecidableEq β] (f : α → β) :
    ∀ (n : Nat) (l : List α), l.length ≤ n → ∀ b ∈ l, ∃ a ∈ dedupKey f l, f a = f b
  | _, [], _ => by simp
  | 0, a :: l, h => by simp at h
  | n + 1, a :: l, h => by
    intro b hb
    rw [dedupKey_cons]
    rcases List.mem_cons.mp hb with rfl | hb
    · exact ⟨b, List.mem_cons_self _ _, rfl⟩
    · by_cases hfb : f b = f a
      · exact ⟨a, List.mem_cons_self _ _, hfb.symm⟩
      · have hbf : b ∈ l.filter fun c => decide (f c ≠ f a) :=
          List.mem_filter.mpr ⟨hb, by simpa using hfb⟩
        obtain ⟨c, hc, hcb⟩ := mem_dedupKey_of_mem f n _
          (le_trans (List.length_filter_le _ _) (Nat.le_of_succ_le_succ h)) b hbf
        exact ⟨c, List.mem_cons_of_mem _ hc, hcb⟩

theorem mem_dedupKey_id (l : List Nat) (d : Nat) : d ∈ dedupKey id l ↔ d ∈ l := by
  constructor
  · exact fun h => mem_dedupKey_self id l h
  · intro h
    obtain ⟨a, ha, hab⟩ := mem_dedupKey_of_mem id l.length l le_rfl d h
    simpa [show a = d from hab] using ha

theorem dedupKey_eq_self [DecidableEq β] (f : α → β) (l : List α)
    (h : l.Pairwise fun a b => f a ≠ f b) : dedupKey f l = l := by
  induction l with
  | nil => simp [dedupKey]
  | cons a t ih =>
    rw [dedupKey_cons]
    rcases List.pairwise_cons.mp h with ⟨ha, ht⟩
    have hf : (t.filter fun b => decide (f b ≠ f a)) = t :=
      List.filter_eq_self.mpr fun b hb => by
        simpa using fun he => ha b hb he.symm
    rw [hf, ih ht]

theorem orderedInsert_keyLe_cons (f : α → Nat) (a : α) (s : List α)
    (h : ∀ x ∈ s, f a ≤ f x) : s.orderedInsert (keyLe f) a = a :: s := by
  cases s with
  | nil => rfl
  | cons b t =>
    exact List.orderedInsert_of_le (r := keyLe f) t (h b (List.mem_cons_self b t))

theorem filter_orderedInsert_pos (f : α → Nat) (p : α → Bool) (a : α) :
    ∀ (s : List α), p a = true → s.Sorted (keyLe f) →
      (s.orderedInsert (keyLe f) a).filter p = (s.filter p).orderedInsert (keyLe f) a
  | [], hp, _ => by simp [List.orderedInsert, hp]
  | b :: t, hp, hs => by
    obtain ⟨hb, ht⟩ := List.sorted_cons.mp hs
    by_cases hab : keyLe f a b
    · rw [List.orderedInsert, if_pos hab, List.filter_cons, hp, if_pos rfl]
      rw [orderedInsert_keyLe_cons f a ((b :: t).filter p)]
      intro x hx
      have hx2 := List.mem_of_mem_filter hx
      rcases List.mem_cons.mp hx2 with rfl | hx3
      · exact hab
      · exact le_trans hab (hb x hx3)
    · rw [List.orderedInsert, if_neg hab]
      by_cases hpb : p b = true
      · rw [List.filter_cons, hpb, if_pos rfl, List.filter_cons, hpb, if_pos rfl,
          List.orderedInsert, if_neg hab, filter_orderedInsert_pos f p a t hp ht]
      · rw [List.filter_cons, eq_false_of_ne_true hpb, if_neg (by simp),
          List.filter_cons, eq_false_of_ne_true hpb, if_neg (by simp),
          filter_orderedInsert_pos f p a t hp ht]

theorem filter_orderedInsert_neg (f : α → Nat) (p : α → Bool) (a : α) :
    ∀ (s : List α), p a = false →
      (s.orderedInsert (keyLe f) a).filter p = s.filter p
  | [], hp => by simp [List.orderedInsert, hp]
  | b :: t, hp => by
    by_cases hab : keyLe f a b
    · rw [List.orderedInsert, if_pos hab, List.filter_cons, hp, if_neg (by simp)]
    · rw [List.orderedInsert, if_neg hab, List.filter_cons,
        filter_orderedInsert_neg f p a t hp, List.filter_cons]

theorem insertionSort_filter (f : α → Nat) (p : α → Bool) :
    ∀ (l : List α),
      (l.filter p).insertionSort (keyLe f) = (l.insertionSort (keyLe f)).filter p
  | [] => rfl
  | a :: t => by
    by_cases hp : p a = true
    · rw [List.filter_cons, hp, if_pos rfl]
      simp only [List.insertionSort]
      rw [insertionSort_filter f p t,
        filter_orderedInsert_pos f p a _ hp (List.sorted_insertionSort _ t)]
    · rw [List.filter_cons, eq_false_of_ne_true hp, if_neg (by simp)]
      simp only [List.insertionSort]
      rw [insertionSort_filter f p t,
        filter_orderedInsert_neg f p a _ (eq_false_of_ne_true hp)]

theorem dedupKey_orderedInsert (f : α → Nat) (a : α) :
    ∀ (n : Nat) (s : List α), s.length ≤ n → s.Sorted (keyLe f) →
      dedupKey f (s.orderedInsert (keyLe f) a) =
        (dedupKey f (s.filter fun b => decide (f b ≠ f a))).orderedInsert (keyLe f) a
  | _, [], _, _ => by simp [List.orderedInsert, dedupKey]
  | 0, b :: t, h, _ => by simp at h
  | n + 1, b :: t, h, hs => by
    obtain ⟨hb, ht⟩ := List.sorted_cons.mp hs
    by_cases hab : keyLe f a b
    · rw [List.orderedInsert, if_pos hab, dedupKey_cons,
        orderedInsert_keyLe_cons f a _ ?hle]
      case hle =>
        intro x hx
        have hx2 := List.mem_of_mem_filter (mem_dedupKey_self f _ hx)
        rcases List.mem_cons.mp hx2 with rfl | hx3
        · exact hab
        · exact le_trans hab (hb x hx3)
    · have hfab : f b < f a := Nat.lt_of_not_le hab
      rw [List.orderedInsert, if_neg hab, dedupKey_cons,
        filter_orderedInsert_pos f _ a t (by simp [Nat.ne_of_gt hfab]) ht,
        dedupKey_orderedInsert f a n (t.filter fun c => decide (f c ≠ f b))
          (le_trans (List.length_filter_le _ _) (Nat.le_of_succ_le_succ h))
          (List.Pairwise.filter _ ht),
        List.filter_cons, (by simp [Nat.ne_of_lt hfab] : (decide (f b ≠ f a)) = true),
        if_pos rfl, dedupKey_cons, List.orderedInsert, if_neg hab]
      have hcomm : ∀ (u : List α),
          ((u.filter fun c => decide (f c ≠ f b)).filter fun c => decide (f c ≠ f a)) =
          ((u.filter fun c => decide (f c ≠ f a)).filter fun c => decide (f c ≠ f b)) := by
        intro u
        rw [List.filter_filter, List.filter_filter]
        exact List.filter_congr fun x _ => Bool.and_comm _ _
      rw [hcomm t]

theorem insertionSort_dedupKey_comm (f : α → Nat) :
    ∀ (n : Nat) (l : List α), l.length ≤ n →
      (dedupKey f l).insertionSort (keyLe f) = dedupKey f (l.insertionSort (keyLe f))
  | _, [], _ => by simp [dedupKey]
  | 0, a :: t, h => by simp at h
  | n + 1, a :: t, h => by
    rw [dedupKey_cons]
    simp only [List.insertionSort]
    rw [insertionSort_dedupKey_comm f n (t.filter fun b => decide (f b ≠ f a))
        (le_trans (List.length_filter_le _ _) (Nat.le_of_succ_le_succ h)),
      insertionSort_filter f _ t,
      dedupKey_orderedInsert f a (t.insertionSort (keyLe f)).length _ le_rfl
        (List.sorted_insertionSort _ t)]

theorem sortKey_dedupKey_comm (f : α → Nat) (l : List α) :
    (dedupKey f l).insertionSort (keyLe f) = dedupKey f (l.insertionSort (keyLe f)) :=
  insertionSort_dedupKey_comm f l.length l le_rfl

theorem sortedKeys_of_pairwise_lt (ks : List Nat) (h : ks.Pairwise (· < ·)) :
    sortedKeys ks = ks := by
  have h1 : dedupKey id ks = ks :=
    dedupKey_eq_self id ks (h.imp fun hlt => Nat.ne_of_lt hlt)
  rw [sortedKeys, h1]
  exact List.Sorted.insertionSort_eq (h.imp fun hlt => Nat.le_of_lt hlt)

theorem mem_sortedKeys (ks : List Nat) (d : Nat) : d ∈ sortedKeys ks ↔ d ∈ ks := by
  rw [sortedKeys, List.mem_insertionSort]
  exact mem_dedupKey_id ks d

theorem groupMap_self {β : Type} (g : List β → β) :
    ∀ (l : List (Nat × β)), (∀ p ∈ l, g [p.2] = p.2) →
      l.Pairwise (fun p q => p.1 < q.1) →
      ((l.map Prod.fst).map fun d =>
        (d, g ((l.filter fun p => p.1 == d).map Prod.snd))) = l
  | [], _, _ => rfl
  | a :: t, hg, hl => by
    obtain ⟨ha, ht⟩ := List.pairwise_cons.mp hl
    have hfa : ((a :: t).filter fun p => p.1 == a.1) = [a] := by
      rw [List.filter_cons, (by simp : (a.1 == a.1) = true), if_pos rfl]
      rw [List.filter_eq_nil_iff.mpr fun p hp => by
        simp [Nat.ne_of_gt (ha p hp)]]
    have htail : ∀ d ∈ t.map Prod.fst,
        ((a :: t).filter fun p => p.1 == d) = t.filter fun p => p.1 == d := by
      intro d hd
      obtain ⟨q, hq, rfl⟩ := List.mem_map.mp hd
      rw [List.filter_cons, (by simp [Nat.ne_of_lt (ha q hq)] : (a.1 == q.1) = false)]
      simp
    simp only [List.map_cons, hfa]
    refine congrArg₂ List.cons ?_ ?_
    · have := hg a (List.mem_cons_self a t)
      simp [this]
    · rw [List.map_congr_left fun d hd => by rw [htail d hd]]
      exact groupMap_self g t (fun p hp => hg p (List.mem_cons_of_mem a hp)) ht

theorem groupSum_self (l : List (Nat × ℚ)) (hl : l.Pairwise fun p q => p.1 < q.1) :
    groupSum l = l := by
  rw [groupSum, sortedKeys_of_pairwise_lt _ (List.pairwise_map.mpr hl)]
  exact groupMap_self (fun vs => vs.sum) l (fun p _ => by simp) hl

theorem groupMeanQ_self (l : List (Nat × ℚ)) (hl : l.Pairwise fun p q => p.1 < q.1) :
    groupMeanQ l = l := by
  rw [groupMeanQ, sortedKeys_of_pairwise_lt _ (List.pairwise_map.mpr hl)]
  exact groupMap_self qMean l (fun p _ => by simp [qMean]) hl

theorem EV.mean_singleton (v : EV) (h : v ≠ EV.nan) : EV.mean [v] = v := by
  cases v with
  | nan => exact absurd rfl h
  | pinf => rfl
  | ninf => rfl
  | fin q => simp [EV.mean, EV.sumL, EV.add, EV.divNat]

theorem groupMeanEV_self (l : List (Nat × EV)) (hl : l.Pairwise fun p q => p.1 < q.1)
    (hnz : ∀ p ∈ l, p.2 ≠ EV.nan) : groupMeanEV l = l := by
  rw [groupMeanEV, sortedKeys_of_pairwise_lt _ (List.pairwise_map.mpr hl)]
  exact groupMap_self EV.mean l (fun p hp => EV.mean_singleton p.2 (hnz p hp)) hl

theorem groupMeanQ_mem (l : List (Nat × ℚ)) (d : Nat) (v : ℚ) :
    (d, v) ∈ groupMeanQ l ↔
      d ∈ l.map Prod.fst ∧ v = qMean ((l.filter fun p => p.1 == d).map Prod.snd) := by
  rw [groupMeanQ, List.mem_map]
  constructor
  · rintro ⟨k, hk, he⟩
    obtain ⟨h1, h2⟩ := Prod.mk.injEq .. |>.mp he
    subst h1
    exact ⟨(mem_sortedKeys _ _).mp hk, h2.symm⟩
  · rintro ⟨hd, rfl⟩
    exact ⟨d, (mem_sortedKeys _ _).mpr hd, rfl⟩

/-! ## Facts about the bond-yield loader -/

theorem bondCleanRows_yield_bounds (t : BondTable) (name : String) :
    ∀ r ∈ bondCleanRows t name, -5 ≤ r.yield ∧ r.yield ≤ 50 := by
  intro r hr
  obtain ⟨src, _, hsrc⟩ := List.mem_filterMap.mp hr
  cases hd : (tryYM src.timeP).orElse fun _ => tryY src.timeP with
  | none => rw [hd] at hsrc; simp at hsrc
  | some d =>
    cases ho : src.obs with
    | none => rw [hd, ho] at hsrc; simp at hsrc
    | some v =>
      rw [hd, ho] at hsrc
      simp only [] at hsrc
      split at hsrc
      case isTrue hv => cases hsrc; exact hv
      case isFalse hv => cases hsrc

/-- A concrete bond-yield source used to evaluate the bond-yield claims:
the first and third rows parse to the same date (January 2020, via the
"%Y-%m" parse and the "%Y" fallback respectively), and one value (99)
lies outside the sanity bounds. -/
def cBond : BondTable :=
  { rows := [⟨"DATAFLOW", "F", TimeStr.ym 2020 1, some 3⟩,
             ⟨"DATAFLOW", "F", TimeStr.yr 2019, some 1⟩,
             ⟨"DATAFLOW", "F", TimeStr.yr 2020, some 2⟩,
             ⟨"DATAFLOW", "F", TimeStr.yr 2021, some 99⟩] }

/-- C5: duplicate-date removal in get_bond_yields keeps the first
occurrence with respect to the date-sorted order: for every input table
and entity name, the stored series equals the series obtained by first
stable-sorting the cleaned rows ascending by date and then dropping every
row whose date already occurred earlier in the sorted order. -/
theorem claim_c5 (t : BondTable) (name : String) :
    bond_single t name = bondDedupAfterSort t name := by
  unfold bond_single bondDedupAfterSort
  exact sortKey_dedupKey_comm BRow.date (bondCleanRows t name)

/-- C6: every stored bond-yield series has strictly increasing dates
(hence no two rows share a date and the rows are sorted ascending), and
every value lies within [-5, 50]. -/
theorem claim_c6 (t : BondTable) (name : String) :
    ((bond_single t name).map BRow.date).Pairwise (· < ·) ∧
      ∀ r ∈ bond_single t name, -5 ≤ r.yield ∧ r.yield ≤ 50 := by
  constructor
  · have hs : List.Sorted (keyLe BRow.date) (bond_single t name) :=
      List.sorted_insertionSort _ _
    have hperm := List.perm_insertionSort (keyLe BRow.date)
      (dedupKey BRow.date (bondCleanRows t name))
    have hne : (bond_single t name).Pairwise fun a b => a.date ≠ b.date :=
      (hperm.pairwise_iff fun h => h.symm).mpr (pairwise_dedupKey BRow.date _)
    have hlt : (bond_single t name).Pairwise fun a b => a.date < b.date :=
      (hs.and hne).imp fun h => lt_of_le_of_ne h.1 h.2
    exact List.pairwise_map.mpr hlt
  · intro r hr
    have h1 : r ∈ dedupKey BRow.date (bondCleanRows t name) :=
      (List.mem_insertionSort (keyLe BRow.date)).mp hr
    exact bondCleanRows_yield_bounds t name r (mem_dedupKey_self _ _ h1)

/-- Witness for C6: the invariants evaluated on a concrete source. -/
theorem claim_c6_witness :
    ((bond_single cBond "F").map BRow.date).Pairwise (· < ·) ∧
      ∀ r ∈ bond_single cBond "F", -5 ≤ r.yield ∧ r.yield ≤ 50 :=
  claim_c6 cBond "F"

/-! ## Aliasing of the aggregate name in get_bond_yields (C9, C10) -/

/-- C9: calling get_bond_yields on an entity named "European Union"
substitutes the source alias "Euro area (19 countries)" before filtering
(the stored series is the one filtered under the alias), and afterwards
the entity name equals the alias, not the canonical label. -/
theorem claim_c9 (t : BondTable) :
    (get_bond_yields (Entity.mk0 "European Union") t).name = "Euro area (19 countries)" ∧
      (get_bond_yields (Entity.mk0 "European Union") t).bond_yields =
        some (bond_single t "Euro area (19 countries)") :=
  ⟨rfl, rfl⟩

/-- C10: after get_bond_yields has run on an entity built with the name
"European Union", every later indicator load on that entity takes the
single-entity path and filters for the literal name
"Euro area (19 countries)", because aggregate dispatch compares the
(now rewritten) name field against "European Union". -/
theorem claim_c10 (tb : BondTable) (tp : PWTable) (ti : InflTable) (tu : UTable) :
    (get_bond_yields (Entity.mk0 "European Union") tb).name ≠ "European Union" ∧
    get_gdp (get_bond_yields (Entity.mk0 "European Union") tb) tp =
      Except.ok { get_bond_yields (Entity.mk0 "European Union") tb with
        gdp := some (Sum.inl (gdp_single tp "Euro area (19 countries)")) } ∧
    get_gdp_per_capita (get_bond_yields (Entity.mk0 "European Union") tb) tp =
      Except.ok { get_bond_yields (Entity.mk0 "European Union") tb with
        gdp_per_capita := some (Sum.inl (pc_single tp "Euro area (19 countries)")) } ∧
    get_inflation (get_bond_yields (Entity.mk0 "European Union") tb) ti =
      Except.ok { get_bond_yields (Entity.mk0 "European Union") tb with
        inflation := some (inflation_single ti "Euro area (19 countries)") } ∧
    get_unemployment (get_bond_yields (Entity.mk0 "European Union") tb) tu =
      (unemployment_single tu "Euro area (19 countries)").map
        (fun f => { get_bond_yields (Entity.mk0 "European Union") tb with
          unemployment := some f }) := by
  refine ⟨by simp [get_bond_yields, Entity.mk0], rfl, rfl, rfl, ?_⟩
  show get_unemployment (get_bond_yields (Entity.mk0 "European Union") tb) tu = _
  cases h : unemployment_single tu "Euro area (19 countries)" with
  | error e => simp [get_unemployment, get_bond_yields, Entity.mk0, h, Except.map]
  | ok f => simp [get_unemployment, get_bond_yields, Entity.mk0, h, Except.map]

/-! ## Behaviour on unknown country names (C2) -/

/-- C2 (as the code actually behaves): for a name matching no row of the
relevant source, get_gdp, get_gdp_per_capita, get_inflation and
get_bond_yields raise nothing and store an empty series; only
get_unemployment raises, and the exception is a KeyError for the missing
pivot column "LF", not a dedicated empty-result error (no such error
exists in the code). -/
theorem claim_c2 (tp : PWTable) (ti : InflTable) (tu : UTable) (tb : BondTable)
    (name : String)
    (hp : ∀ r ∈ tp.rows, r.country ≠ name)
    (hi : ∀ r ∈ ti.rows, r.refArea ≠ name)
    (hu : ∀ r ∈ tu.rows, r.refArea ≠ name)
    (hb : ∀ r ∈ tb.rows, r.refArea ≠ name) :
    gdp_single tp name = [] ∧ pc_single tp name = [] ∧
      inflation_single ti name = [] ∧ bond_single tb name = [] ∧
      unemployment_single tu name = Except.error (Err.keyErr "LF") := by
  have hg : tp.rows.filter (fun r => r.country == name && r.varCode == "rgdpo") = [] :=
    List.filter_eq_nil_iff.mpr fun r hr => by simp [hp r hr]
  have hpop : tp.rows.filter (fun r => r.country == name && r.varCode == "pop") = [] :=
    List.filter_eq_nil_iff.mpr fun r hr => by simp [hp r hr]
  have hif : ti.rows.filter (fun r => r.refArea == name) = [] :=
    List.filter_eq_nil_iff.mpr fun r hr => by simp [hi r hr]
  have huf : tu.rows.filter
      (fun r => r.struct == "DATAFLOW" && r.age == "_T" && r.refArea == name) = [] :=
    List.filter_eq_nil_iff.mpr fun r hr => by simp [hu r hr]
  have hbf : (tb.rows.filter fun r => r.struct == "DATAFLOW").filter
      (fun r => r.refArea == name) = [] :=
    List.filter_eq_nil_iff.mpr fun r hr => by
      simp [hb r (List.mem_of_mem_filter hr)]
  refine ⟨?_, ?_, ?_, ?_, ?_⟩
  · simp [gdp_single, gdpMelt, hg]
  · simp [pc_single, pcMerged, hg, hpop]
  · simp [inflation_single, hif, List.insertionSort]
  · simp [bond_single, bondCleanRows, hbf, dedupKey, List.insertionSort]
  · simp [unemployment_single, huf]

/-- A concrete Penn World Table source: GDP 100 and 110 for years 2019
and 2020, population 10 for 2019 and 0 for 2020. -/
def cPW : PWTable :=
  { yearCols := [2019, 2020],
    rows := [⟨"Testland", "rgdpo", fun y => if y = 2019 then some 100 else some 110⟩,
             ⟨"Testland", "pop", fun y => if y = 2019 then some 10 else some 0⟩] }

/-- A concrete CPI source: two rows for France in 2019 (values 1 and 2)
and one outlier row (value 60) in 2020. -/
def cInfl : InflTable :=
  { rows := [⟨"France", TimeStr.yr 2019, some 1⟩,
             ⟨"France", TimeStr.yr 2019, some 2⟩,
             ⟨"France", TimeStr.yr 2020, some 60⟩] }

/-- A concrete unemployment source for France (rate 10 percent in both
2018 and 2019). -/
def cU : UTable :=
  { rows := [⟨"DATAFLOW", "_T", "France", "LF", TimeStr.yr 2019, some 100⟩,
             ⟨"DATAFLOW", "_T", "France", "EMP", TimeStr.yr 2019, some 90⟩,
             ⟨"DATAFLOW", "_T", "France", "LF", TimeStr.yr 2018, some 50⟩,
             ⟨"DATAFLOW", "_T", "France", "EMP", TimeStr.yr 2018, some 45⟩] }

/-- Counterexample to C2 as stated: on a source that has no row for
"Atlantis", get_gdp succeeds (raising nothing) and stores an empty frame,
instead of failing with an empty-result error. -/
theorem claim_c2_counterexample :
    get_gdp (Entity.mk0 "Atlantis") cPW =
      Except.ok { Entity.mk0 "Atlantis" with gdp := some (Sum.inl ([] : List GRow)) } ∧
      gdp_single cPW "Atlantis" = [] := by
  constructor
  · with_unfolding_all rfl
  · with_unfolding_all rfl

/-- Witness for the amended C2, at concrete sources and the unknown name
"Atlantis". -/
theorem claim_c2_witness :
    gdp_single cPW "Atlantis" = [] ∧ pc_single cPW "Atlantis" = [] ∧
      inflation_single cInfl "Atlantis" = [] ∧ bond_single cBond "Atlantis" = [] ∧
      unemployment_single cU "Atlantis" = Except.error (Err.keyErr "LF") :=
  claim_c2 cPW cInfl cU cBond "Atlantis" (by decide) (by decide) (by decide) (by decide)

/-! ## GDP per capita and NaN versus infinity (C1) -/

theorem pcMerged_pc_eq (t : PWTable) (name : String) :
    ∀ r ∈ pcMerged t name, r.pc = EV.divOpt r.gdp r.pop := by
  intro r hr
  obtain ⟨gv, hgv, hr2⟩ := List.mem_flatMap.mp hr
  obtain ⟨pv, hpv, rfl⟩ := List.mem_map.mp hr2
  rfl

/-- C1 (as the code actually behaves): every stored GDP-per-capita row
has a parsed (non-NaN) GDP cell and a parsed population cell, and its
value is not NaN — rows whose division gives NaN (missing or non-numeric
inputs, or 0/0) are dropped by dropna — but a zero population with a
nonzero GDP survives: its value is the infinity of the GDP sign, which
dropna does not remove. -/
theorem claim_c1 (t : PWTable) (name : String) :
    ∀ r ∈ pc_single t name,
      r.pc ≠ EV.nan ∧ (∃ g, r.gdp = some g) ∧ (∃ p, r.pop = some p) ∧
        (r.pop = some 0 → r.gdp ≠ some 0 ∧ (r.pc = EV.pinf ∨ r.pc = EV.ninf)) := by
  intro r hr
  have hmem := List.mem_of_mem_filter hr
  have hnan : r.pc ≠ EV.nan := by simpa using List.of_mem_filter hr
  have hpc := pcMerged_pc_eq t name r hmem
  rcases hg : r.gdp with _ | g <;> rcases hp : r.pop with _ | p
  · rw [hpc, hg, hp] at hnan; exact absurd rfl hnan
  · rw [hpc, hg, hp] at hnan; exact absurd rfl hnan
  · rw [hpc, hg, hp] at hnan; exact absurd rfl hnan
  · refine ⟨hnan, ⟨g, rfl⟩, ⟨p, rfl⟩, fun h0 => ?_⟩
    have hp0 : p = 0 := Option.some.inj h0
    subst hp0
    rw [hpc, hg, hp] at hnan ⊢
    have hgne : g ≠ 0 := by
      intro hg0
      subst hg0
      exact hnan (by simp [EV.divOpt])
    refine ⟨by simp [hgne], ?_⟩
    by_cases hpos : 0 < g
    · left; simp [EV.divOpt, hgne, hpos]
    · right; simp [EV.divOpt, hgne, hpos]

/-- Counterexample to C1 as stated: with population 0 and GDP 110 in
2020, the stored GDP-per-capita series keeps a row for that date — with
value +inf — although the population is zero. -/
theorem claim_c1_counterexample :
    pc_single cPW "Testland" =
      [⟨"Testland", yearDate 2019, some 100, some 10, EV.fin 10⟩,
       ⟨"Testland", yearDate 2020, some 110, some 0, EV.pinf⟩] ∧
      ((pc_single cPW "Testland").any fun r => r.pop == some 0) = true := by
  constructor
  · with_unfolding_all rfl
  · with_unfolding_all rfl

/-- Witness for the amended C1: the surviving zero-population row of the
concrete source satisfies the amended description. -/
theorem claim_c1_witness :
    (⟨"Testland", yearDate 2020, some 110, some 0, EV.pinf⟩ : PCRow).pc ≠ EV.nan ∧
      (∃ g, (⟨"Testland", yearDate 2020, some 110, some 0, EV.pinf⟩ : PCRow).gdp = some g) ∧
      (∃ p, (⟨"Testland", yearDate 2020, some 110, some 0, EV.pinf⟩ : PCRow).pop = some p) ∧
      ((⟨"Testland", yearDate 2020, some 110, some 0, EV.pinf⟩ : PCRow).pop = some 0 →
        (⟨"Testland", yearDate 2020, some 110, some 0, EV.pinf⟩ : PCRow).gdp ≠ some 0 ∧
          ((⟨"Testland", yearDate 2020, some 110, some 0, EV.pinf⟩ : PCRow).pc = EV.pinf ∨
            (⟨"Testland", yearDate 2020, some 110, some 0, EV.pinf⟩ : PCRow).pc = EV.ninf)) :=
  claim_c1 cPW "Testland" ⟨"Testland", yearDate 2020, some 110, some 0, EV.pinf⟩ (by
    rw [(by with_unfolding_all rfl : pc_single cPW "Testland" =
      [⟨"Testland", yearDate 2019, some 100, some 10, EV.fin 10⟩,
       ⟨"Testland", yearDate 2020, some 110, some 0, EV.pinf⟩])]
    exact List.mem_cons_of_mem _ (List.mem_cons_self _ _))

/-! ## Date invariants of inflation and unemployment (C7) -/

theorem unempRow_of_some (name : String) (g : TimeStr → EV) (tp : TimeStr) (x : UnempRow)
    (h : (match tryY tp, g tp with
          | some d, rate => if rate = EV.nan then none else some (⟨name, d, rate⟩ : UnempRow)
          | none, _ => none) = some x) :
    ∃ y, tp = TimeStr.yr y ∧ x.date = y * 12 := by
  cases tp with
  | yr y =>
    refine ⟨y, rfl, ?_⟩
    rw [show tryY (TimeStr.yr y) = some (y * 12) from rfl] at h
    simp only [] at h
    split at h
    · cases h
    · cases h; rfl
  | ym y m => rw [show tryY (TimeStr.ym y m) = none from rfl] at h; cases h
  | bad s => rw [show tryY (TimeStr.bad s) = none from rfl] at h; cases h

/-- C7 (as the code actually behaves): cleaned inflation series are sorted
ascending by date but may contain duplicate dates (no deduplication is
performed); cleaned unemployment series have strictly increasing dates
(the pivot groups rows by period), hence unique dates and ascending
order. -/
theorem claim_c7 (ti : InflTable) (ni : String) (tu : UTable) (nu : String) :
    ((inflation_single ti ni).map IRow.date).Pairwise (· ≤ ·) ∧
      ∀ res, unemployment_single tu nu = Except.ok res →
        (res.map UnempRow.date).Pairwise (· < ·) := by
  constructor
  · exact List.pairwise_map.mpr (List.sorted_insertionSort (keyLe IRow.date) _)
  · intro res h
    simp only [unemployment_single] at h
    split at h
    · cases h
    split at h
    · cases h
    have hres := Except.ok.inj h
    subst hres
    have hsort : List.Sorted (keyLe TimeStr.key)
        ((dedupKey id ((tu.rows.filter fun r =>
            r.struct == "DATAFLOW" && r.age == "_T" && r.refArea == nu).map URow.timeP)).insertionSort
          (keyLe TimeStr.key)) :=
      List.sorted_insertionSort _ _
    have hperm := List.perm_insertionSort (keyLe TimeStr.key)
      (dedupKey id ((tu.rows.filter fun r =>
          r.struct == "DATAFLOW" && r.age == "_T" && r.refArea == nu).map URow.timeP))
    have hne := (hperm.pairwise_iff fun hxy => hxy.symm).mpr
      ((pairwise_dedupKey id _).imp fun hxy => hxy)
    rw [List.pairwise_map, List.pairwise_filterMap]
    refine (hsort.and hne).imp ?_
    intro a b hab x hx y hy
    obtain ⟨ya, rfl, hxa⟩ := unempRow_of_some nu
      (fun tp => rateEV
        (pivotCell (tu.rows.filter fun r =>
          r.struct == "DATAFLOW" && r.age == "_T" && r.refArea == nu) tp "LF")
        (pivotCell (tu.rows.filter fun r =>
          r.struct == "DATAFLOW" && r.age == "_T" && r.refArea == nu) tp "EMP"))
      a x (Option.mem_def.mp hx)
    obtain ⟨yb, rfl, hyb⟩ := unempRow_of_some nu
      (fun tp => rateEV
        (pivotCell (tu.rows.filter fun r =>
          r.struct == "DATAFLOW" && r.age == "_T" && r.refArea == nu) tp "LF")
        (pivotCell (tu.rows.filter fun r =>
          r.struct == "DATAFLOW" && r.age == "_T" && r.refArea == nu) tp "EMP"))
      b y (Option.mem_def.mp hy)
    rw [hxa, hyb]
    have hle : ya * 13 ≤ yb * 13 := hab.1
    have hyne : ya ≠ yb := fun he => hab.2 (by rw [he])
    have : ya < yb := lt_of_le_of_ne (Nat.le_of_mul_le_mul_right hle (by omega)) hyne
    omega

/-- Counterexample to C7 as stated: two source rows for France with the
same year survive cleaning, so the stored inflation series has a
duplicate date. -/
theorem claim_c7_counterexample :
    (inflation_single cInfl "France").map IRow.date =
        [yearDate 2019, yearDate 2019, yearDate 2020] ∧
      ¬ ((inflation_single cInfl "France").map IRow.date).Pairwise (fun a b => a ≠ b) := by
  constructor
  · with_unfolding_all rfl
  · rw [(by with_unfolding_all rfl : (inflation_single cInfl "France").map IRow.date =
      [yearDate 2019, yearDate 2019, yearDate 2020])]
    decide

set_option maxRecDepth 40000 in
/-- Witness for the amended C7 at concrete sources. -/
theorem claim_c7_witness :
    ((inflation_single cInfl "France").map IRow.date).Pairwise (· ≤ ·) ∧
      (([⟨"France", yearDate 2018, EV.fin 10⟩,
         ⟨"France", yearDate 2019, EV.fin 10⟩] : List UnempRow).map UnempRow.date).Pairwise
        (· < ·) :=
  ⟨(claim_c7 cInfl "France" cU "France").1,
   (claim_c7 cInfl "France" cU "France").2
     [⟨"France", yearDate 2018, EV.fin 10⟩, ⟨"France", yearDate 2019, EV.fin 10⟩]
     (by with_unfolding_all rfl)⟩

/-! ## Aggregate error handling (C8) -/

theorem collectMembers_fst (load : String → Except Err α) :
    ∀ (members : List String),
      (collectMembers load members).1 = members.filterMap fun m => (load m).toOption
  | [] => rfl
  | m :: ms => by
    cases h : load m with
    | ok df =>
      simp [collectMembers, h, collectMembers_fst load ms, Except.toOption]
    | error e =>
      simp [collectMembers, h, collectMembers_fst load ms, Except.toOption]

/-- The warning a member load contributes: nothing on success, the
member name paired with the exception on failure. -/
def warnEntry (load : String → Except Err α) (m : String) : Option (String × Err) :=
  match load m with
  | .error e => some (m, e)
  | .ok _ => none

theorem collectMembers_snd (load : String → Except Err α) :
    ∀ (members : List String),
      (collectMembers load members).2 = members.filterMap (warnEntry load)
  | [] => rfl
  | m :: ms => by
    cases h : load m with
    | ok df => simp [collectMembers, h, collectMembers_snd load ms, warnEntry]
    | error e => simp [collectMembers, h, collectMembers_snd load ms, warnEntry]

theorem collect_isEmpty_iff (load : String → Except Err α) (members : List String) :
    (collectMembers load members).1.isEmpty = true ↔
      ∀ m ∈ members, ∃ e, load m = .error e := by
  rw [collectMembers_fst, List.isEmpty_iff, List.filterMap_eq_nil_iff]
  constructor
  · intro h m hm
    have h2 := h m hm
    cases hl : load m with
    | ok df => rw [hl] at h2; simp [Except.toOption] at h2
    | error e => exact ⟨e, rfl⟩
  · intro h m hm
    obtain ⟨e, he⟩ := h m hm
    simp [he, Except.toOption]

theorem agg_with_error_iff {ρ σ : Type} (load : String → Except Err ρ)
    (members : List String) (combine : List ρ → σ) (msg : String) :
    (if (collectMembers load members).1.isEmpty then
        (Except.error (Err.valueErr msg) : Except Err σ)
      else .ok (combine (collectMembers load members).1)) = .error (Err.valueErr msg) ↔
      ∀ m ∈ members, ∃ e, load m = .error e := by
  by_cases he : (collectMembers load members).1.isEmpty = true
  · rw [if_pos he]
    simpa using (collect_isEmpty_iff load members).mp he
  · rw [if_neg (by simpa using he)]
    constructor
    · intro h2; cases h2
    · intro hall
      exact absurd ((collect_isEmpty_iff load members).mpr hall) he

/-- C8: an aggregate load raises the no-data ValueError exactly when
every member load failed (zero members produced a series); each failing
member is skipped and recorded as a warning naming the member and the
underlying exception, in MemberSet order; the collected frames are
exactly the successful members' frames, and when at least one member
succeeded the aggregate is computed from exactly those frames. -/
theorem claim_c8 (loadG : String → Except Err (List GRow))
    (loadP : String → Except Err (List PCRow))
    (loadI : String → Except Err (List IRow)) (members : List String) :
    ((collectMembers loadG members).2 = members.filterMap (warnEntry loadG)) ∧
    ((collectMembers loadG members).1 = members.filterMap fun m => (loadG m).toOption) ∧
    ((gdp_aggregate_with loadG members).1 =
        Except.error (Err.valueErr "No EU member state GDP data could be loaded.") ↔
      ∀ m ∈ members, ∃ e, loadG m = Except.error e) ∧
    ((pc_aggregate_with loadP members).1 =
        Except.error (Err.valueErr "No EU member state GDP per capita data could be loaded.") ↔
      ∀ m ∈ members, ∃ e, loadP m = Except.error e) ∧
    ((inflation_aggregate_with loadI members).1 =
        Except.error (Err.valueErr "No EU member state inflation data could be loaded.") ↔
      ∀ m ∈ members, ∃ e, loadI m = Except.error e) ∧
    ((collectMembers loadG members).1 ≠ [] →
      (gdp_aggregate_with loadG members).1 =
        Except.ok (gdpCombine (members.filterMap fun m => (loadG m).toOption))) := by
  refine ⟨collectMembers_snd loadG members, collectMembers_fst loadG members, ?_, ?_, ?_, ?_⟩
  · exact agg_with_error_iff loadG members gdpCombine _
  · exact agg_with_error_iff loadP members pcCombine _
  · exact agg_with_error_iff loadI members (inflCombine members.length) _
  · intro hne
    have he : (collectMembers loadG members).1.isEmpty = false := by
      simpa using hne
    show (if (collectMembers loadG members).1.isEmpty then _ else _) = _
    rw [he, if_neg (by simp), collectMembers_fst]

/-! ## Aggregation over a one-member MemberSet (C3) -/

theorem collectMembers_total {α : Type} (g : String → α) :
    ∀ (ms : List String), collectMembers (fun c => .ok (g c)) ms = (ms.map g, [])
  | [] => rfl
  | m :: ms => by simp [collectMembers, collectMembers_total g ms]

theorem pc_single_pc_ne_nan (t : PWTable) (name : String) :
    ∀ r ∈ pc_single t name, r.pc ≠ EV.nan := fun _ hr => by
  simpa using List.of_mem_filter hr

theorem gdpCombine_singleton (l : List GRow)
    (hsorted : (l.map GRow.date).Pairwise (· < ·)) :
    gdpCombine [l] = l.map fun r => (r.date, r.gdp) := by
  have hflat : ([l] : List (List GRow)).flatten = l := by simp
  simp only [gdpCombine, hflat]
  exact groupSum_self _ (List.pairwise_map.mpr (List.pairwise_map.mp hsorted))

theorem pcCombine_singleton (l : List PCRow)
    (hsorted : (l.map PCRow.date).Pairwise (· < ·))
    (hnz : ∀ r ∈ l, r.pc ≠ EV.nan) :
    pcCombine [l] = l.map fun r => (r.date, r.pc) := by
  have hflat : ([l] : List (List PCRow)).flatten = l := by simp
  simp only [pcCombine, hflat]
  refine groupMeanEV_self _ (List.pairwise_map.mpr (List.pairwise_map.mp hsorted)) ?_
  intro p hp
  obtain ⟨r, hr, rfl⟩ := List.mem_map.mp hp
  exact hnz r hr

theorem inflCombine_singleton (l : List IRow)
    (hsorted : (l.map IRow.date).Pairwise (· < ·))
    (hrange : ∀ r ∈ l, -50 ≤ r.val ∧ r.val ≤ 50) :
    inflCombine 1 [l] = l := by
  have hflat : ([l] : List (List IRow)).flatten = l := by simp
  have hfil : (l.filter fun r => decide (-50 ≤ r.val ∧ r.val ≤ 50)) = l :=
    List.filter_eq_self.mpr fun r hr => by simpa using hrange r hr
  have hkept :
      (l.filter fun r => decide (1 ≤ 2 * (l.filter fun s => s.date == r.date).length)) = l := by
    refine List.filter_eq_self.mpr fun r hr => ?_
    have hself : r ∈ l.filter fun s => s.date == r.date :=
      List.mem_filter.mpr ⟨hr, by simp⟩
    have hlen : 0 < (l.filter fun s => s.date == r.date).length :=
      List.length_pos.mpr (List.ne_nil_of_mem hself)
    simp only [decide_eq_true_eq]
    omega
  calc inflCombine 1 [l]
      = (groupMeanQ (l.map fun r => (r.date, r.val))).map (fun p => (⟨p.1, p.2⟩ : IRow)) := by
        simp only [inflCombine, hflat, hfil, hkept]
    _ = (l.map fun r => (r.date, r.val)).map (fun p => (⟨p.1, p.2⟩ : IRow)) := by
        rw [groupMeanQ_self _ (List.pairwise_map.mpr (List.pairwise_map.mp hsorted))]
    _ = l := by
        rw [List.map_map]
        exact List.map_id l

/-- C3 (as the code actually behaves): aggregating GDP, GDP-per-capita
or inflation over a MemberSet of one member reproduces that member's own
single-entity series (projected to its date and value columns) provided
the member's series has strictly increasing dates — the groupby otherwise
merges duplicate dates — and, for inflation, all its values lie within
[-50, 50] — the aggregate otherwise discards them as outliers. -/
theorem claim_c3 (tp : PWTable) (ti : InflTable) (m : String)
    (hm : m ≠ "European Union")
    (hg : ((gdp_single tp m).map GRow.date).Pairwise (· < ·))
    (hp : ((pc_single tp m).map PCRow.date).Pairwise (· < ·))
    (hi : ((inflation_single ti m).map IRow.date).Pairwise (· < ·))
    (hir : ∀ r ∈ inflation_single ti m, -50 ≤ r.val ∧ r.val ≤ 50) :
    gdp_aggregate tp [m] = Except.ok ((gdp_single tp m).map fun r => (r.date, r.gdp)) ∧
      pc_aggregate tp [m] = Except.ok ((pc_single tp m).map fun r => (r.date, r.pc)) ∧
      inflation_aggregate ti [m] = Except.ok (inflation_single ti m) := by
  have hcolg : collectMembers (fun c => Except.ok (gdp_single tp c)) [m] =
      ([gdp_single tp m], []) := collectMembers_total _ [m]
  have hcolp : collectMembers (fun c => Except.ok (pc_single tp c)) [m] =
      ([pc_single tp m], []) := collectMembers_total _ [m]
  have hcoli : collectMembers (fun c => Except.ok (inflation_single ti c)) [m] =
      ([inflation_single ti m], []) := collectMembers_total _ [m]
  refine ⟨?_, ?_, ?_⟩
  · simp only [gdp_aggregate, gdp_aggregate_with, hcolg, List.isEmpty_cons, if_neg]
    rw [if_neg (by simp), gdpCombine_singleton _ hg]
  · simp only [pc_aggregate, pc_aggregate_with, hcolp]
    rw [if_neg (by simp), pcCombine_singleton _ hp (pc_single_pc_ne_nan tp m)]
  · simp only [inflation_aggregate, inflation_aggregate_with, hcoli]
    rw [if_neg (by simp)]
    rw [show ([m] : List String).length = 1 from rfl, inflCombine_singleton _ hi hir]

/-- A Penn World Table source in which one country has two rgdpo rows,
producing a single-country GDP series with a duplicate date. -/
def cPWdup : PWTable :=
  { yearCols := [2019],
    rows := [⟨"A", "rgdpo", fun _ => some 1⟩, ⟨"A", "rgdpo", fun _ => some 2⟩] }

/-- Counterexample to C3 as stated: with a duplicate date in the member's
GDP series the aggregate sums the two rows into one, and with an
out-of-range inflation value (60) the aggregate drops it and averages the
remaining duplicate-date rows — in both cases the one-member aggregate
differs from the member's own series. -/
theorem claim_c3_counterexample :
    gdp_aggregate cPWdup ["A"] = Except.ok [(yearDate 2019, 3)] ∧
      (gdp_single cPWdup "A").map (fun r => (r.date, r.gdp)) =
        [(yearDate 2019, 1), (yearDate 2019, 2)] ∧
      inflation_aggregate cInfl ["France"] = Except.ok [⟨yearDate 2019, 3 / 2⟩] ∧
      inflation_single cInfl "France" =
        [⟨yearDate 2019, 1⟩, ⟨yearDate 2019, 2⟩, ⟨yearDate 2020, 60⟩] := by
  refine ⟨?_, ?_, ?_, ?_⟩
  · with_unfolding_all rfl
  · with_unfolding_all rfl
  · with_unfolding_all rfl
  · with_unfolding_all rfl

/-- A CPI source whose Testland series is clean: unique sorted dates and
in-range values. -/
def cInflOk : InflTable :=
  { rows := [⟨"Testland", TimeStr.yr 2019, some 2⟩, ⟨"Testland", TimeStr.yr 2020, some 3⟩] }

/-- Witness for the amended C3 at a concrete source whose member series
satisfies the hypotheses. -/
theorem claim_c3_witness :
    gdp_aggregate cPW ["Testland"] =
        Except.ok ((gdp_single cPW "Testland").map fun r => (r.date, r.gdp)) ∧
      pc_aggregate cPW ["Testland"] =
        Except.ok ((pc_single cPW "Testland").map fun r => (r.date, r.pc)) ∧
      inflation_aggregate cInflOk ["Testland"] = Except.ok (inflation_single cInflOk "Testland") :=
  claim_c3 cPW cInflOk "Testland" (by decide)
    (by
      rw [(by with_unfolding_all rfl : (gdp_single cPW "Testland").map GRow.date =
        [yearDate 2019, yearDate 2020])]
      decide)
    (by
      rw [(by with_unfolding_all rfl : (pc_single cPW "Testland").map PCRow.date =
        [yearDate 2019, yearDate 2020])]
      decide)
    (by
      rw [(by with_unfolding_all rfl : (inflation_single cInflOk "Testland").map IRow.date =
        [yearDate 2019, yearDate 2020])]
      decide)
    (by
      rw [(by with_unfolding_all rfl : inflation_single cInflOk "Testland" =
        [⟨yearDate 2019, 2⟩, ⟨yearDate 2020, 3⟩])]
      intro r hr
      rcases List.mem_cons.mp hr with rfl | hr2
      · constructor <;> norm_num
      rcases List.mem_cons.mp hr2 with rfl | hr3
      · constructor <;> norm_num
      · cases hr3)

/-! ## Coverage threshold of the inflation aggregate (C4) -/

/-- The in-range observation rows available at a date across the
concatenated member frames, as values: the quantity the coverage count
and the average of the inflation aggregate range over. -/
def inflObsAt (dfs : List (List IRow)) (d : Nat) : List ℚ :=
  (((dfs.flatten.filter fun r => decide (-50 ≤ r.val ∧ r.val ≤ 50)).filter
    fun r => r.date == d).map IRow.val)

theorem inflCombine_mem (n : Nat) (hn : 0 < n) (dfs : List (List IRow)) (d : Nat) :
    ((∃ v, (⟨d, v⟩ : IRow) ∈ inflCombine n dfs) ↔ n ≤ 2 * (inflObsAt dfs d).length) ∧
      ∀ v, (⟨d, v⟩ : IRow) ∈ inflCombine n dfs → v = qMean (inflObsAt dfs d) := by
  have hmk : ∀ (X : List (Nat × ℚ)) (v : ℚ),
      ((⟨d, v⟩ : IRow) ∈ X.map fun p => (⟨p.1, p.2⟩ : IRow)) ↔ (d, v) ∈ X := by
    intro X v
    rw [List.mem_map]
    constructor
    · rintro ⟨⟨pd, pv⟩, hp, he⟩
      obtain ⟨h1, h2⟩ := IRow.mk.injEq .. |>.mp he
      subst h1; subst h2; exact hp
    · intro hp; exact ⟨(d, v), hp, rfl⟩
  have hE1 : (((dfs.flatten.filter fun r => decide (-50 ≤ r.val ∧ r.val ≤ 50)).filter fun r =>
        decide (n ≤ 2 * ((dfs.flatten.filter fun r => decide (-50 ≤ r.val ∧ r.val ≤ 50)).filter
          fun s => s.date == r.date).length)).map fun r => (r.date, r.val)).map Prod.fst =
      ((dfs.flatten.filter fun r => decide (-50 ≤ r.val ∧ r.val ≤ 50)).filter fun r =>
        decide (n ≤ 2 * ((dfs.flatten.filter fun r => decide (-50 ≤ r.val ∧ r.val ≤ 50)).filter
          fun s => s.date == r.date).length)).map IRow.date := by
    rw [List.map_map]; rfl
  have hE2 : ((((dfs.flatten.filter fun r => decide (-50 ≤ r.val ∧ r.val ≤ 50)).filter fun r =>
        decide (n ≤ 2 * ((dfs.flatten.filter fun r => decide (-50 ≤ r.val ∧ r.val ≤ 50)).filter
          fun s => s.date == r.date).length)).map fun r => (r.date, r.val)).filter
            fun p => p.1 == d).map Prod.snd =
      (((dfs.flatten.filter fun r => decide (-50 ≤ r.val ∧ r.val ≤ 50)).filter fun r =>
        decide (n ≤ 2 * ((dfs.flatten.filter fun r => decide (-50 ≤ r.val ∧ r.val ≤ 50)).filter
          fun s => s.date == r.date).length)).filter fun r => r.date == d).map IRow.val := by
    rw [List.filter_map, List.map_map]; rfl
  have hchar : ∀ v : ℚ, ((⟨d, v⟩ : IRow) ∈ inflCombine n dfs ↔
      d ∈ (((dfs.flatten.filter fun r => decide (-50 ≤ r.val ∧ r.val ≤ 50)).filter fun r =>
        decide (n ≤ 2 * ((dfs.flatten.filter fun r => decide (-50 ≤ r.val ∧ r.val ≤ 50)).filter
          fun s => s.date == r.date).length)).map IRow.date) ∧
      v = qMean ((((dfs.flatten.filter fun r => decide (-50 ≤ r.val ∧ r.val ≤ 50)).filter fun r =>
        decide (n ≤ 2 * ((dfs.flatten.filter fun r => decide (-50 ≤ r.val ∧ r.val ≤ 50)).filter
          fun s => s.date == r.date).length)).filter fun r => r.date == d).map IRow.val)) := by
    intro v
    rw [show inflCombine n dfs =
      (groupMeanQ (((dfs.flatten.filter fun r => decide (-50 ≤ r.val ∧ r.val ≤ 50)).filter fun r =>
        decide (n ≤ 2 * ((dfs.flatten.filter fun r => decide (-50 ≤ r.val ∧ r.val ≤ 50)).filter
          fun s => s.date == r.date).length)).map fun r => (r.date, r.val))).map
        fun p => (⟨p.1, p.2⟩ : IRow) from rfl]
    rw [hmk, groupMeanQ_mem, hE1, hE2]
  have hdm : d ∈ (((dfs.flatten.filter fun r => decide (-50 ≤ r.val ∧ r.val ≤ 50)).filter fun r =>
        decide (n ≤ 2 * ((dfs.flatten.filter fun r => decide (-50 ≤ r.val ∧ r.val ≤ 50)).filter
          fun s => s.date == r.date).length)).map IRow.date) ↔
      n ≤ 2 * ((dfs.flatten.filter fun r => decide (-50 ≤ r.val ∧ r.val ≤ 50)).filter
        fun s => s.date == d).length := by
    rw [List.mem_map]
    constructor
    · rintro ⟨r, hrk, rfl⟩
      obtain ⟨hrR, hcond⟩ := List.mem_filter.mp hrk
      simpa using hcond
    · intro hb
      have hpos : 0 < ((dfs.flatten.filter fun r => decide (-50 ≤ r.val ∧ r.val ≤ 50)).filter
          fun s => s.date == d).length := by omega
      obtain ⟨r, hrf⟩ := List.exists_mem_of_ne_nil _ (List.length_pos.mp hpos)
      obtain ⟨hrR, hrd⟩ := List.mem_filter.mp hrf
      have hrdeq : r.date = d := by simpa using hrd
      refine ⟨r, List.mem_filter.mpr ⟨hrR, ?_⟩, hrdeq⟩
      simp only [hrdeq, decide_eq_true_eq]
      exact hb
  have hlen : (inflObsAt dfs d).length =
      ((dfs.flatten.filter fun r => decide (-50 ≤ r.val ∧ r.val ≤ 50)).filter
        fun s => s.date == d).length := by
    simp only [inflObsAt, List.length_map]
  have hke : n ≤ 2 * ((dfs.flatten.filter fun r => decide (-50 ≤ r.val ∧ r.val ≤ 50)).filter
        fun s => s.date == d).length →
      (((dfs.flatten.filter fun r => decide (-50 ≤ r.val ∧ r.val ≤ 50)).filter fun r =>
        decide (n ≤ 2 * ((dfs.flatten.filter fun r => decide (-50 ≤ r.val ∧ r.val ≤ 50)).filter
          fun s => s.date == r.date).length)).filter fun r => r.date == d) =
      ((dfs.flatten.filter fun r => decide (-50 ≤ r.val ∧ r.val ≤ 50)).filter
        fun s => s.date == d) := by
    intro hb
    rw [List.filter_filter]
    refine List.filter_congr fun r hrR => ?_
    by_cases hbeq : (r.date == d) = true
    · have hrdeq : r.date = d := by simpa using hbeq
      have hcond : decide (n ≤ 2 * ((dfs.flatten.filter fun r =>
          decide (-50 ≤ r.val ∧ r.val ≤ 50)).filter fun s => s.date == r.date).length) = true := by
        rw [hrdeq]; exact decide_eq_true hb
      rw [hbeq, hcond]; rfl
    · rw [eq_false_of_ne_true hbeq, Bool.false_and]
  constructor
  · constructor
    · rintro ⟨v, hv⟩
      rw [hlen]
      exact hdm.mp ((hchar v).mp hv).1
    · intro hb
      rw [hlen] at hb
      exact ⟨_, (hchar _).mpr ⟨hdm.mpr hb, rfl⟩⟩
  · intro v hv
    obtain ⟨hd, rfl⟩ := (hchar v).mp hv
    have hb := hdm.mp hd
    rw [hke hb]
    rfl

/-- C4 (as the code actually behaves): in the aggregate inflation load a
date appears in the result exactly when the number of in-range
observation ROWS for that date across the member frames is at least half
the MemberSet size (the code counts rows, not distinct members, so one
member with several rows for a date can satisfy the threshold alone);
observations outside [-50, 50] are discarded beforehand, and the value
stored for each included date is the mean of the surviving observations. -/
theorem claim_c4 (t : InflTable) (members : List String) (d : Nat) (hm : members ≠ []) :
    inflation_aggregate t members =
        Except.ok (inflCombine members.length (members.map fun c => inflation_single t c)) ∧
      ((∃ v, (⟨d, v⟩ : IRow) ∈ inflCombine members.length
          (members.map fun c => inflation_single t c)) ↔
        members.length ≤ 2 * (inflObsAt (members.map fun c => inflation_single t c) d).length) ∧
      ∀ v, (⟨d, v⟩ : IRow) ∈ inflCombine members.length
          (members.map fun c => inflation_single t c) →
        v = qMean (inflObsAt (members.map fun c => inflation_single t c) d) := by
  have hn : 0 < members.length := List.length_pos.mpr hm
  have hcol : collectMembers (fun c => Except.ok (inflation_single t c)) members =
      (members.map fun c => inflation_single t c, []) := collectMembers_total _ members
  refine ⟨?_, (inflCombine_mem _ hn _ d).1, (inflCombine_mem _ hn _ d).2⟩
  simp only [inflation_aggregate, inflation_aggregate_with, hcol]
  rw [if_neg (by simp [List.isEmpty_iff, hm])]

/-- Counterexample to C4 as stated: with MemberSet {France, B, C} only
one member (France) reports 2019 values, short of the required two
(⌈3/2⌉) members, yet the date is included because France contributes two
in-range observation rows for it. -/
theorem claim_c4_counterexample :
    inflation_aggregate cInfl ["France", "B", "C"] = Except.ok [⟨yearDate 2019, 3 / 2⟩] ∧
      ((["France", "B", "C"].filter fun c =>
        (inflation_single cInfl c).any fun r => r.date == yearDate 2019).length = 1) := by
  constructor
  · with_unfolding_all rfl
  · with_unfolding_all rfl

/-- Witness for the amended C4 at a concrete source and date. -/
theorem claim_c4_witness :
    (inflation_aggregate cInfl ["France", "B", "C"] =
        Except.ok (inflCombine (["France", "B", "C"] : List String).length
          ((["France", "B", "C"] : List String).map fun c => inflation_single cInfl c)) ∧
      ((∃ v, (⟨yearDate 2019, v⟩ : IRow) ∈ inflCombine (["France", "B", "C"] : List String).length
          ((["France", "B", "C"] : List String).map fun c => inflation_single cInfl c)) ↔
        (["France", "B", "C"] : List String).length ≤
          2 * (inflObsAt ((["France", "B", "C"] : List String).map
            fun c => inflation_single cInfl c) (yearDate 2019)).length) ∧
      ∀ v, (⟨yearDate 2019, v⟩ : IRow) ∈ inflCombine (["France", "B", "C"] : List String).length
          ((["France", "B", "C"] : List String).map fun c => inflation_single cInfl c) →
        v = qMean (inflObsAt ((["France", "B", "C"] : List String).map
          fun c => inflation_single cInfl c) (yearDate 2019))) :=
  claim_c4 cInfl ["France", "B", "C"] (yearDate 2019) (by decide)
